import Mathlib

/-!
# Verification of the GovHack data indexer core (services/dataIndexer.js)

Shallow embedding of the `DataIndexer` class: id slugging, section
extraction, the deep crawler, the multi-strategy search pipeline with its
deduplication and composite relevance score, refresh and stats.

Modelling conventions:
* JS strings are Lean `String` (a structure over `List Char`); the JS string
  helpers used by the source (`toLowerCase`, `trim`, `substring`,
  `includes`, `split(/\s+/)`) are re-implemented below on `List Char`,
  restricted to the ASCII behaviour the source relies on.
* Numbers handled by the ranking layer (Fuse.js raw scores, context scores,
  composite relevance scores) are modelled as rationals `ℚ`.
* The network (`axios`) and the DOM parser (`cheerio`) are modelled by an
  environment: a page fetched from a URL is either `none` (request error,
  the source's `catch` branch) or a `Page` record carrying the already
  parsed pieces the source reads off the DOM.
* The Fuse.js index is modelled as an opaque query function
  `String → List FuseHit` produced by an abstract index builder carried in
  the environment; the source treats the library as a black box as well.
* `Date.now()` / `new Date()` timestamps are modelled by a `now : Nat`
  field of the environment.
* Two ghost fields instrument the state for specification purposes only:
  `fetchLog` records every URL for which a network fetch was issued, and
  `Record.crawlDepth` records the recursion depth at which a crawled
  document was emitted.  Neither influences any computed value.
-/

/-! ## JS string primitives (ASCII behaviour) -/

/-- JS `String.prototype.toLowerCase` restricted to ASCII letters, which is
all the source ever feeds it (slugs, vocabulary scans). -/
def jsToLower (c : Char) : Char :=
  if 65 ≤ c.toNat ∧ c.toNat ≤ 90 then Char.ofNat (c.toNat + 32) else c

/-- Lower-case a whole string, character by character. -/
def strToLower (s : String) : String := ⟨s.data.map jsToLower⟩

/-- JS `String.prototype.trim`: strip leading and trailing whitespace. -/
def jsTrim (s : String) : String :=
  ⟨((s.data.dropWhile Char.isWhitespace).reverse.dropWhile Char.isWhitespace).reverse⟩

/-- JS `s.substring(0, n)`. -/
def jsSubstring (s : String) (n : Nat) : String := ⟨s.data.take n⟩

/-- Does `pat` occur at the head of `l`? (helper for `jsIncludes`). -/
def leadMatch : List Char → List Char → Bool
  | [], _ => true
  | _ :: _, [] => false
  | p :: ps, c :: cs => p == c && leadMatch ps cs

/-- Does `pat` occur anywhere inside `l`? (helper for `jsIncludes`). -/
def subMatch (pat : List Char) : List Char → Bool
  | [] => pat.isEmpty
  | c :: cs => leadMatch pat (c :: cs) || subMatch pat cs

/-- JS `String.prototype.includes`. -/
def jsIncludes (s pat : String) : Bool := subMatch pat.data s.data

/-- Split a string at each whitespace character (auxiliary). -/
def splitOnWsAux : List Char → List Char → List (List Char)
  | cur, [] => [cur.reverse]
  | cur, c :: rest =>
    if c.isWhitespace then cur.reverse :: splitOnWsAux [] rest
    else splitOnWsAux (c :: cur) rest

/-- Model of the JS whitespace split: the source always filters the pieces by a minimum
length afterwards, so splitting at every single whitespace character (which
only introduces extra empty pieces for runs) is equivalent. -/
def splitOnWs (s : String) : List String :=
  (splitOnWsAux [] s.data).map fun l => ⟨l⟩

/-- Insert keeping the `le`-order; equal elements keep their relative order
(JS engines implement `Array.prototype.sort` stably). -/
def insertBy {α : Type} (le : α → α → Bool) (a : α) : List α → List α
  | [] => [a]
  | b :: rest => if le a b then a :: b :: rest else b :: insertBy le a rest

/-- Stable insertion sort, modelling `Array.prototype.sort(cmp)`. -/
def sortBy {α : Type} (le : α → α → Bool) : List α → List α
  | [] => []
  | a :: rest => insertBy le a (sortBy le rest)

/-- Body of the JS `[...new Set(xs)]` idiom, with the already seen elements accumulated
(auxiliary). -/
def jsSetDedupAux (seen : List String) : List String → List String
  | [] => []
  | x :: rest =>
    if seen.contains x then jsSetDedupAux seen rest
    else x :: jsSetDedupAux (seen ++ [x]) rest

/-- Model of `[...new Set(xs)]`: deduplicate keeping first occurrences. -/
def jsSetDedup (xs : List String) : List String := jsSetDedupAux [] xs

/-! ## Id slugging (`generateId`, `generateSectionId`) -/

/-- Is `c` an ASCII lower-case letter or digit (the class `[a-z0-9]`)? -/
def isLowerAlnum (c : Char) : Bool :=
  (97 ≤ c.toNat && c.toNat ≤ 122) || (48 ≤ c.toNat && c.toNat ≤ 57)

/-- One step of the regex replace of `[^a-z0-9]` by a hyphen. -/
def dashify (c : Char) : Char := if isLowerAlnum c then c else '-'

/-- Model of the regex replace of hyphen runs: collapse every run of hyphens to one hyphen. -/
def squeezeDashes : List Char → List Char
  | [] => []
  | [c] => [c]
  | c :: d :: rest =>
    if c == '-' && d == '-' then squeezeDashes (d :: rest)
    else c :: squeezeDashes (d :: rest)

/-- The leading-edge half of the trim-hyphens regex replace: drop one leading hyphen. -/
def dropLeadingDash : List Char → List Char
  | [] => []
  | c :: rest => if c == '-' then rest else c :: rest

/-- The trailing-edge half of the trim-hyphens regex replace: drop one trailing hyphen. -/
def dropTrailingDash : List Char → List Char
  | [] => []
  | [c] => if c == '-' then [] else [c]
  | c :: d :: rest => c :: dropTrailingDash (d :: rest)

/-- Model of `generateId(text)`: lower-case, turn every non-alphanumeric character
into a hyphen, collapse hyphen runs, trim a leading/trailing hyphen. -/
def generateId (text : String) : String :=
  ⟨dropTrailingDash (dropLeadingDash (squeezeDashes ((text.data.map jsToLower).map dashify)))⟩

/-- Model of `generateSectionId(text)`: the slug truncated to 50 characters. -/
def generateSectionId (text : String) : String :=
  jsSubstring (generateId text) 50

/-! ## Fixed vocabularies

The source re-declares the same three literal arrays in
`extractSectionTags`, `analyzeQuery` and `searchWithContext`; they are
declared once here. -/

/-- Geographic locations vocabulary. -/
def locationsVocab : List String :=
  ["adelaide", "melbourne", "sydney", "brisbane", "perth", "darwin", "hobart", "canberra"]

/-- Topic areas vocabulary. -/
def topicsVocab : List String :=
  ["education", "health", "employment", "housing", "transport", "environment", "economy", "tourism"]

/-- Government levels vocabulary. -/
def govLevelsVocab : List String :=
  ["federal", "state", "local", "council"]

/-! ## DOM model and section extraction -/

/-- A sibling element as seen by `extractSectionContent`: the source only
distinguishes headings (by level), text containers `P`/`DIV`/`SECTION`,
lists `UL`/`OL` (read through their `li` children) and everything else. -/
inductive DomNode where
  | heading (level : Nat) (text : String)
  | para (text : String)
  | divEl (text : String)
  | sectionEl (text : String)
  | list (items : List String)
  | other
deriving DecidableEq

/-- The sibling walk of `extractSectionContent`: accumulate text until a
heading of equal or shallower level appears. -/
def collectContent (headingLevel : Nat) : List DomNode → String
  | [] => ""
  | DomNode.heading l _ :: rest =>
    if l ≤ headingLevel then "" else collectContent headingLevel rest
  | DomNode.para t :: rest => jsTrim t ++ " " ++ collectContent headingLevel rest
  | DomNode.divEl t :: rest => jsTrim t ++ " " ++ collectContent headingLevel rest
  | DomNode.sectionEl t :: rest => jsTrim t ++ " " ++ collectContent headingLevel rest
  | DomNode.list items :: rest =>
    String.join (items.map fun i => jsTrim i ++ " ") ++ collectContent headingLevel rest
  | DomNode.other :: rest => collectContent headingLevel rest

/-- Model of `extractSectionContent($, $heading)`: the collected sibling text,
trimmed, truncated to 1000 characters.  The heading is represented by its
level and the list of its following siblings. -/
def extractSectionContent (headingLevel : Nat) (siblings : List DomNode) : String :=
  jsSubstring (jsTrim (collectContent headingLevel siblings)) 1000

/-- Model of `extractSectionTags(title, content)`: scan the lowercased text for the
three fixed vocabularies. -/
def extractSectionTags (title content : String) : List String :=
  let text := strToLower (title ++ " " ++ content)
  (locationsVocab.filter fun loc => jsIncludes text loc) ++
  (topicsVocab.filter fun topic => jsIncludes text topic) ++
  (govLevelsVocab.filter fun lvl => jsIncludes text lvl)

/-- A Section record as pushed by `parsePageStructure`. -/
structure Section where
  id : String
  title : String
  content : String
  level : Nat
  path : List String
  tags : List String
  url : String
deriving DecidableEq

/-- A heading occurrence handed to `parsePageStructure`: its level, its raw
text, and the sibling elements following it (the `$heading.next()` chain). -/
structure HeadingOcc where
  level : Nat
  text : String
  following : List DomNode
deriving DecidableEq

/-- Reverse scan of `generateSectionPath`: walk the previously collected
sections from the last one backwards, prepending each title whose level is
strictly below the decreasing threshold. -/
def pathLoop : List Section → Nat → List String
  | [], _ => []
  | s :: rest, lvl =>
    if s.level < lvl then pathLoop rest s.level ++ [s.title]
    else pathLoop rest lvl

/-- Model of `generateSectionPath(sections, currentLevel)`. -/
def generateSectionPath (sections : List Section) (currentLevel : Nat) : List String :=
  pathLoop sections.reverse currentLevel

/-- The heading loop of `parsePageStructure`: each non-empty heading emits a
Section whose `path` is computed from the sections collected so far. -/
def buildSectionsAux (url : String) (acc : List Section) : List HeadingOcc → List Section
  | [] => acc
  | h :: rest =>
    let headingText := jsTrim h.text
    if headingText.length = 0 then buildSectionsAux url acc rest
    else
      let content := extractSectionContent h.level h.following
      let sec : Section :=
        { id := generateSectionId headingText
          title := headingText
          content := content
          level := h.level
          path := generateSectionPath acc h.level
          tags := extractSectionTags headingText content
          url := url ++ "#" ++ generateSectionId headingText }
      buildSectionsAux url (acc ++ [sec]) rest

/-- All sections of a page, in document order. -/
def buildSections (url : String) (headings : List HeadingOcc) : List Section :=
  buildSectionsAux url [] headings

/-- A fetched page, as the source reads it off the cheerio DOM.  `links`
holds the same-domain absolute URLs of the page's anchors (the `new URL`
resolution and hostname comparison of `extractInternalLinks` is performed by
the Node `url` library and is abstracted into this field). -/
structure Page where
  raw : String := ""
  titleTag : String := ""
  firstH1 : String := ""
  metaDescription : String := ""
  ogDescription : String := ""
  firstParagraph : String := ""
  headings : List HeadingOcc := []
  links : List String := []
deriving DecidableEq

/-- The result triple of `parsePageStructure`. -/
structure PageStructure where
  title : String
  description : String
  sections : List Section
deriving DecidableEq

/-- Model of `parsePageStructure($, url, source, baseTags)`: title fallback chain,
description fallback chain, and the section list. -/
def parsePageStructure (url : String) (page : Page) : PageStructure :=
  let title :=
    if jsTrim page.titleTag ≠ "" then jsTrim page.titleTag
    else if jsTrim page.firstH1 ≠ "" then jsTrim page.firstH1
    else "Untitled"
  let description :=
    if page.metaDescription ≠ "" then page.metaDescription
    else if page.ogDescription ≠ "" then page.ogDescription
    else jsSubstring page.firstParagraph 200
  { title := title, description := description, sections := buildSections url page.headings }

/-! ## Records and indexer state -/

/-- An indexable item.  The source stores heterogeneous JS objects in its
four collections; this structure is the union of the fields in play, with
`""` / `[]` / `0` standing for an absent JS property.  `crawlDepth` is ghost
instrumentation (the recursion depth at which the crawler emitted the
record); it is written by the model only and never read by any modelled
computation. -/
structure Record where
  id : String := ""
  title : String := ""
  description : String := ""
  content : String := ""
  source : String := ""
  type : String := ""
  category : String := ""
  url : String := ""
  tags : List String := []
  parentUrl : String := ""
  parentTitle : String := ""
  level : Nat := 0
  path : List String := []
  sections : List Section := []
  lastUpdated : Nat := 0
  crawlDepth : Nat := 0
deriving DecidableEq

/-- One raw hit of the Fuse.js index (`includeScore: true`; the reported
raw score lives in `[0,1]`, lower is better). -/
structure FuseHit where
  item : Record
  score : ℚ
deriving DecidableEq

/-- The mutable state of the `DataIndexer` instance.  `fetchLog` is ghost
instrumentation recording each URL for which a network request was issued. -/
structure IndexerState where
  datasets : List Record := []
  apis : List Record := []
  documents : List Record := []
  contentSections : List Record := []
  crawledUrls : List String := []
  searchIndex : Option (String → List FuseHit) := none
  lastUpdated : Option Nat := none
  fetchLog : List String := []

/-- The state of a fresh `new DataIndexer()`. -/
def emptyState : IndexerState := {}

/-- The flattening performed by `buildSearchIndex`: the four collections, stamped with categories. -/
def allItems (st : IndexerState) : List Record :=
  st.datasets.map (fun item => { item with category := "dataset" }) ++
  st.apis.map (fun item => { item with category := "api" }) ++
  st.documents.map (fun item => { item with category := "document" }) ++
  st.contentSections.map (fun item => { item with category := "section" })

/-! ## Query analysis and context search -/

/-- The result of `analyzeQuery`. -/
structure QueryAnalysis where
  originalQuery : String
  words : List String
  locations : List String
  topics : List String
  govLevels : List String
  hasContext : Bool
  isSpecific : Bool
deriving DecidableEq

/-- Model of `analyzeQuery(query)`: vocabulary substring detection over the
lower-cased query. -/
def analyzeQuery (query : String) : QueryAnalysis :=
  let lowerQuery := strToLower query
  let words := splitOnWs lowerQuery
  let detectedLocations := locationsVocab.filter fun loc => jsIncludes lowerQuery loc
  let detectedTopics := topicsVocab.filter fun topic => jsIncludes lowerQuery topic
  let detectedGovLevels := govLevelsVocab.filter fun lvl => jsIncludes lowerQuery lvl
  { originalQuery := query
    words := words
    locations := detectedLocations
    topics := detectedTopics
    govLevels := detectedGovLevels
    hasContext := detectedLocations.length > 0 || detectedTopics.length > 0
    isSpecific := detectedLocations.length > 0 && detectedTopics.length > 0 }

/-- A strategy hit inside `search`: a record plus the raw (lower-is-better)
score, the context score when the semantic strategy produced it, and the
strategy tag. -/
structure ScoredHit where
  item : Record
  score : ℚ
  contextScore : Option ℚ := none
  searchType : String := ""
deriving DecidableEq

/-- The per-item score accumulation of `searchWithContext`: +10 per detected
location match, +8 per topic, +5 per government level, +3 for sections. -/
def contextScoreOf (qa : QueryAnalysis) (item : Record) : ℚ :=
  let itemTags := item.tags
  let itemText := strToLower (item.title ++ " " ++
    (if item.content ≠ "" then item.content
     else if item.description ≠ "" then item.description else ""))
  10 * ((qa.locations.filter fun loc =>
          itemTags.contains loc || jsIncludes itemText loc).length : ℚ) +
  8 * ((qa.topics.filter fun topic =>
          itemTags.contains topic || jsIncludes itemText topic).length : ℚ) +
  5 * ((qa.govLevels.filter fun lvl =>
          itemTags.contains lvl || jsIncludes itemText lvl).length : ℚ) +
  (if item.category = "section" then 3 else 0)

/-- Model of `searchWithContext(queryAnalysis)`: every record with a positive context
score, wrapped with the inverse score `1 / (contextScore + 1)`, sorted by
context score descending. -/
def searchWithContext (st : IndexerState) (qa : QueryAnalysis) : List ScoredHit :=
  let allData := allItems st
  let contextResults := allData.filterMap fun item =>
    let cs := contextScoreOf qa item
    if cs > 0 then
      some { item := item, score := 1 / (cs + 1), contextScore := some cs }
    else none
  sortBy (fun a b => a.contextScore.getD 0 > b.contextScore.getD 0) contextResults

/-! ## Composite relevance score -/

/-- The `switch (result.searchType)` strategy bonus. -/
def strategyBonus : String → ℚ
  | "semantic" => 50
  | "exact" => 40
  | "fuzzy" => 20
  | "partial" => 10
  | _ => 0

/-- Model of `calculateRelevanceScore(result, queryAnalysis)`.  The context bonus
reproduces the JS truthiness test `if (result.contextScore)`: an absent or
zero context score adds nothing. -/
def calculateRelevanceScore (result : ScoredHit) (qa : QueryAnalysis) : ℚ :=
  let score : ℚ := 100
  let score := score + strategyBonus result.searchType
  let score := score - result.score * 100
  let score := score +
    (match result.contextScore with
     | some c => if c = 0 then 0 else c
     | none => 0)
  let score := score +
    (if qa.isSpecific ∧ result.item.category = "section" then 20 else 0)
  max 0 score

/-- Modelled from the spec: the strategy bonus exactly as the spec words it
(semantic +50, exact +40, fuzzy +20, partial +10). -/
def specStrategyBonus : String → ℚ
  | "semantic" => 50
  | "exact" => 40
  | "fuzzy" => 20
  | "partial" => 10
  | _ => 0

/-- Modelled from the spec: "add the context score verbatim if present". -/
def specContextVal : Option ℚ → ℚ
  | some c => c
  | none => 0

/-- Modelled from the spec: the composite score formula
`max(0, 100 + strategyBonus - rawScore*100 + contextScore + specificSectionBonus)`. -/
def specCompositeScore (result : ScoredHit) (qa : QueryAnalysis) : ℚ :=
  max 0 (100 + specStrategyBonus result.searchType - result.score * 100 +
    specContextVal result.contextScore +
    (if qa.isSpecific ∧ result.item.category = "section" then 20 else 0))

/-! ## Search: strategies, deduplication, ranking -/

/-- A deduplicated hit enriched with its composite relevance score
(the `{...result, relevanceScore}` object stored in `uniqueResults`). -/
structure RankedHit where
  item : Record
  score : ℚ
  contextScore : Option ℚ
  searchType : String
  relevanceScore : ℚ
deriving DecidableEq

/-- The dedup key: `result.item.id || result.item.title`. -/
def dedupKey (h : ScoredHit) : String :=
  if h.item.id = "" then h.item.title else h.item.id

/-- Wrap a strategy hit with its relevance score. -/
def toRanked (qa : QueryAnalysis) (h : ScoredHit) : RankedHit :=
  { item := h.item
    score := h.score
    contextScore := h.contextScore
    searchType := h.searchType
    relevanceScore := calculateRelevanceScore h qa }

/-- Model of `Map.set` on an existing key: replace the value in place (JS `Map`
keeps the original insertion position). -/
def replaceVal (k : String) (v : RankedHit) :
    List (String × RankedHit) → List (String × RankedHit)
  | [] => []
  | (k', v') :: rest =>
    if k' = k then (k', v) :: rest else (k', v') :: replaceVal k v rest

/-- One iteration of the dedup loop in `search`: insert a fresh key, and
replace a stored hit exactly when the incoming one is semantic, or beats the
stored raw score strictly while not being a partial hit. -/
def dedupStep (qa : QueryAnalysis) (acc : List (String × RankedHit)) (h : ScoredHit) :
    List (String × RankedHit) :=
  let key := dedupKey h
  match acc.lookup key with
  | none => acc ++ [(key, toRanked qa h)]
  | some existing =>
    if h.searchType = "semantic" ∨ (existing.score > h.score ∧ h.searchType ≠ "partial")
    then replaceVal key (toRanked qa h) acc
    else acc

/-- The whole dedup pass: fold the strategy hits through the `Map`, then
take `Array.from(map.values())` (insertion order). -/
def dedupHits (qa : QueryAnalysis) (hits : List ScoredHit) : List RankedHit :=
  (hits.foldl (dedupStep qa) []).map Prod.snd

/-- Search options; a `none` filter models an absent (or falsy) option. -/
structure SearchOptions where
  limit : Nat := 50
  category : Option String := none
  source : Option String := none
  type : Option String := none
deriving DecidableEq

/-- One entry of the returned result list.  The source spreads the record's
own fields into the result object; the model keeps them nested under
`item`. -/
structure SearchResultItem where
  item : Record
  score : ℚ
  relevanceScore : ℚ
  searchType : String
deriving DecidableEq

/-- The value returned by `search` (the `matches` array and the echoed
`queryAnalysis` are omitted; `filters` echoes the options). -/
structure SearchResponse where
  results : List SearchResultItem
  total : Nat
  query : String
  filters : SearchOptions
  suggestions : List String
deriving DecidableEq

/-- Model of `generateSearchSuggestions(queryAnalysis, results)`. -/
def generateSearchSuggestions (qa : QueryAnalysis) (results : List RankedHit) :
    List String :=
  let s1 :=
    if qa.topics.length > 0 ∧ qa.locations.length = 0 then
      ["Try adding a location: \"" ++ qa.originalQuery ++ " in adelaide\""]
    else []
  let s2 :=
    if qa.locations.length > 0 ∧ qa.topics.length = 0 then
      ["Try adding a topic: \"education " ++ qa.originalQuery ++ "\""]
    else []
  let resultTags := (results.map fun r => r.item.tags).flatten
  let commonTags := (jsSetDedup resultTags).take 3
  let s3 :=
    if commonTags.length > 0 then
      ["Related topics: " ++ String.intercalate ", " commonTags]
    else []
  s1 ++ s2 ++ s3

/-- The empty result sentinel of the early return in `search`. -/
def emptySearchResponse (query : String) (opts : SearchOptions) : SearchResponse :=
  { results := [], total := 0, query := query, filters := opts, suggestions := [] }

/-- Model of `search(query, options)`: the guard (`!this.searchIndex || !query`), the
four retrieval strategies, deduplication, filters, descending sort by
relevance score, and the limit.  The returned `total` counts the returned
(post-limit) results, as in the source. -/
def search (st : IndexerState) (query : String) (opts : SearchOptions) : SearchResponse :=
  match st.searchIndex with
  | none => emptySearchResponse query opts
  | some idx =>
    if query = "" then emptySearchResponse query opts
    else
      let qa := analyzeQuery query
      let semanticHits :=
        if qa.hasContext then
          (searchWithContext st qa).map fun r => { r with searchType := "semantic" }
        else []
      let exactHits := (idx ("\"" ++ query ++ "\"")).map fun r =>
        ({ item := r.item, score := r.score, searchType := "exact" } : ScoredHit)
      let fuzzyHits := (idx query).map fun r =>
        ({ item := r.item, score := r.score, searchType := "fuzzy" } : ScoredHit)
      let words := (splitOnWs (strToLower query)).filter fun word => word.length > 2
      let perWordHits := (words.map fun word =>
        (idx word).map fun r =>
          ({ item := r.item, score := r.score, searchType := "partial" } : ScoredHit)).flatten
      let results := semanticHits ++ exactHits ++ fuzzyHits ++ perWordHits
      let unique := dedupHits qa results
      let unique :=
        match opts.category with
        | some c => unique.filter fun r => r.item.category = c
        | none => unique
      let unique :=
        match opts.source with
        | some s => unique.filter fun r => r.item.source = s
        | none => unique
      let unique :=
        match opts.type with
        | some t => unique.filter fun r => r.item.type = t
        | none => unique
      let sorted := sortBy (fun a b => a.relevanceScore > b.relevanceScore) unique
      let limited := sorted.take opts.limit
      { results := limited.map fun r =>
          { item := r.item, score := r.score
            relevanceScore := r.relevanceScore, searchType := r.searchType }
        total := limited.length
        query := query
        filters := opts
        suggestions := generateSearchSuggestions qa limited }

/-! ## Deep crawler -/

/-- The options object handed to `deepCrawlWebsite`. -/
structure CrawlOpts where
  source : String
  tags : List String
  maxDepth : Nat
deriving DecidableEq

/-- The environment: network and library behaviour abstracted.  The three
`abs*` fields describe the outcome of the three sequential `axios.get`
calls of `fetchABSData` (`fail` = the request threw, `empty` = a falsy
response body, `ok` = a truthy body); `fetchPage` is the crawler's network;
`fuse` is the Fuse.js constructor; `now` the clock. -/
inductive FetchOutcome where
  | fail
  | empty
  | ok
deriving DecidableEq

structure Env where
  absCodelist : FetchOutcome := .fail
  absDataflow : FetchOutcome := .fail
  absOpenapi : FetchOutcome := .fail
  fetchPage : String → Option Page := fun _ => none
  fuse : List Record → String → List FuseHit := fun _ _ => []
  now : Nat := 0

/-- Model of `extractInternalLinks($, baseUrl)`: the page's same-domain absolute
URLs (pre-resolved in `Page.links`), excluding already crawled ones, then
set-deduplicated. -/
def extractInternalLinks (st : IndexerState) (page : Page) : List String :=
  jsSetDedup (page.links.filter fun l => !(st.crawledUrls.contains l))

/-- Model of `filterRelevantLinks(links, tags)`. -/
def filterRelevantLinks (links : List String) (tags : List String) : List String :=
  links.filter fun link =>
    let url := strToLower link
    tags.any (fun tag => jsIncludes url (strToLower tag)) ||
    jsIncludes url "data" || jsIncludes url "api" || jsIncludes url "statistics"

/-- Model of `deepCrawlWebsite(baseUrl, options, currentDepth)`.

The extra `fuel` argument makes the recursion structural; the wrapper
`deepCrawlWebsiteTop` supplies `fuel = maxDepth`, which is sufficient: the
depth guard fires whenever `maxDepth - currentDepth` would reach zero, so
the `fuel = 0` fallback below is never taken on the source's own call
pattern (and when it is taken it merely stops early, so every safety
property proved for all fuels covers the source).

Body, as in the source: a call at `currentDepth ≥ maxDepth` or for an
already visited URL is a no-op; otherwise the URL is marked visited *before*
the fetch; a failed fetch aborts this branch only; a fetched page emits one
Document and its Sections; while depth budget remains
(`currentDepth < maxDepth - 1`) the first five relevant internal links are
crawled recursively at `currentDepth + 1`. -/
def deepCrawlWebsite (env : Env) (opts : CrawlOpts) :
    Nat → String → Nat → IndexerState → IndexerState
  | 0, baseUrl, currentDepth, st =>
    -- out of fuel (never reached when `fuel = maxDepth - currentDepth`):
    -- the guard and the visited-marking still mirror the source
    if currentDepth ≥ opts.maxDepth ∨ st.crawledUrls.contains baseUrl = true then st
    else { st with crawledUrls := st.crawledUrls ++ [baseUrl] }
  | fuel' + 1, baseUrl, currentDepth, st =>
    if currentDepth ≥ opts.maxDepth ∨ st.crawledUrls.contains baseUrl = true then st
    else
      let st1 := { st with crawledUrls := st.crawledUrls ++ [baseUrl] }
      match env.fetchPage baseUrl with
      | none => { st1 with fetchLog := st1.fetchLog ++ [baseUrl] }
      | some page =>
          let st2 := { st1 with fetchLog := st1.fetchLog ++ [baseUrl] }
          let ps := parsePageStructure baseUrl page
          let doc : Record :=
            { id := generateId baseUrl
              title := ps.title
              description := ps.description
              source := opts.source
              type := "website"
              url := baseUrl
              content := page.raw
              tags := opts.tags
              sections := ps.sections
              lastUpdated := env.now
              crawlDepth := currentDepth }
          let st3 := { st2 with documents := st2.documents ++ [doc] }
          let secRecs := ps.sections.map fun sec =>
            ({ id := generateId (baseUrl ++ "#" ++ sec.id)
               title := sec.title
               content := sec.content
               parentUrl := baseUrl
               parentTitle := ps.title
               source := opts.source
               type := "section"
               level := sec.level
               path := sec.path
               tags := opts.tags ++ sec.tags
               lastUpdated := env.now
               crawlDepth := currentDepth } : Record)
          let st4 := { st3 with contentSections := st3.contentSections ++ secRecs }
          if currentDepth < opts.maxDepth - 1 then
            let internalLinks := extractInternalLinks st4 page
            let relevantLinks := filterRelevantLinks internalLinks opts.tags
            (relevantLinks.take 5).foldl
              (fun s link => deepCrawlWebsite env opts fuel' link (currentDepth + 1) s) st4
          else st4

/-- The source's entry call `deepCrawlWebsite(url, options)` (depth 0,
sufficient fuel). -/
def deepCrawlWebsiteTop (env : Env) (opts : CrawlOpts) (url : String)
    (st : IndexerState) : IndexerState :=
  deepCrawlWebsite env opts opts.maxDepth url 0 st

/-! ## Fetch jobs, refresh, stats, custom data -/

/-- ABS codelist endpoint URL. -/
def absCodelistUrl : String := "https://data.api.abs.gov.au/rest/codelist/abs/CL_LGA_2021"

/-- ABS dataflow endpoint URL. -/
def absDataflowUrl : String := "https://data.api.abs.gov.au/rest/dataflow/all?detail=allstubs"

/-- ABS OpenAPI spec URL. -/
def absOpenapiUrl : String :=
  "https://raw.githubusercontent.com/apigovau/api-descriptions/gh-pages/abs/DataAPI.openapi.yaml"

/-- DEWR seed URL. -/
def dewrUrl : String := "https://www.dewr.gov.au/"

/-- ATO seed URL. -/
def atoUrl : String := "https://www.ato.gov.au/about-ato/research-and-statistics"

/-- ABS statistics seed URL. -/
def absStatsUrl : String :=
  "https://www.abs.gov.au/AUSSTATS/abs@.nsf/allprimarymainfeatures/A7FFA19FF6239724CA257F65002272E1?opendocument"

/-- The dataset pushed for a truthy ABS codelist response (the response
payload stored in the JS `data` property is abstracted away). -/
def absCodelistRecord (now : Nat) : Record :=
  { id := "abs-codelist-lga-2021"
    title := "ABS Local Government Areas 2021 Codelist"
    description := "Australian Bureau of Statistics Local Government Areas classification for 2021"
    source := "Australian Bureau of Statistics"
    type := "codelist"
    url := absCodelistUrl
    lastUpdated := now
    tags := ["abs", "local-government", "geography", "classification"] }

/-- The API record pushed for a truthy ABS dataflow response. -/
def absDataflowRecord (now : Nat) : Record :=
  { id := "abs-dataflow-api"
    title := "ABS Data API - All Dataflows"
    description := "Complete list of available dataflows from the Australian Bureau of Statistics Data API"
    source := "Australian Bureau of Statistics"
    type := "api"
    url := absDataflowUrl
    lastUpdated := now
    tags := ["abs", "api", "dataflow", "statistics"] }

/-- The document pushed for a truthy ABS OpenAPI response. -/
def absOpenapiRecord (now : Nat) : Record :=
  { id := "abs-openapi-spec"
    title := "ABS Data API OpenAPI Specification"
    description := "Technical documentation and API specification for the ABS Data API"
    source := "Australian Bureau of Statistics"
    type := "documentation"
    url := absOpenapiUrl
    lastUpdated := now
    tags := ["abs", "api", "documentation", "openapi", "specification"] }

/-- Model of `fetchABSData()`: three sequential awaited requests in one `try` block —
a thrown request skips the remaining ones; each truthy response pushes its
record. -/
def fetchABSData (env : Env) (st : IndexerState) : IndexerState :=
  match env.absCodelist with
  | .fail => st
  | o1 =>
    let st := if o1 = .ok then { st with datasets := st.datasets ++ [absCodelistRecord env.now] } else st
    match env.absDataflow with
    | .fail => st
    | o2 =>
      let st := if o2 = .ok then { st with apis := st.apis ++ [absDataflowRecord env.now] } else st
      match env.absOpenapi with
      | .fail => st
      | o3 =>
        if o3 = .ok then { st with documents := st.documents ++ [absOpenapiRecord env.now] } else st

/-- Model of `fetchDEWRData()`. -/
def fetchDEWRData (env : Env) (st : IndexerState) : IndexerState :=
  deepCrawlWebsiteTop env
    { source := "Department of Employment and Workplace Relations"
      tags := ["dewr", "employment", "workplace-relations", "government"]
      maxDepth := 2 } dewrUrl st

/-- Model of `fetchATOData()`. -/
def fetchATOData (env : Env) (st : IndexerState) : IndexerState :=
  deepCrawlWebsiteTop env
    { source := "Australian Taxation Office"
      tags := ["ato", "taxation", "research", "statistics", "government"]
      maxDepth := 2 } atoUrl st

/-- Model of `fetchABSStatsData()`. -/
def fetchABSStatsData (env : Env) (st : IndexerState) : IndexerState :=
  deepCrawlWebsiteTop env
    { source := "Australian Bureau of Statistics"
      tags := ["abs", "statistics", "data", "government", "census"]
      maxDepth := 2 } absStatsUrl st

/-- Model of `fetchAllData()`: the four jobs under `Promise.allSettled`.  The
JavaScript runtime interleaves them at await points on one thread; the model
serialises them in declaration order (every claim proved below is
insensitive to the interleaving: the visited set is checked and extended
synchronously between suspension points). -/
def fetchAllData (env : Env) (st : IndexerState) : IndexerState :=
  fetchABSStatsData env (fetchATOData env (fetchDEWRData env (fetchABSData env st)))

/-- Model of `buildSearchIndex()`: hand the flattened, category-stamped item list to
the Fuse.js constructor and store the resulting query function. -/
def buildSearchIndex (env : Env) (st : IndexerState) : IndexerState :=
  { st with searchIndex := some (env.fuse (allItems st)) }

/-- Model of `refreshData()`: reset `datasets`, `apis` and `documents` (and only
those), re-run all fetch jobs, rebuild the index, stamp `lastUpdated`. -/
def refreshData (env : Env) (st : IndexerState) : IndexerState :=
  let st := { st with datasets := [], apis := [], documents := [] }
  let st := fetchAllData env st
  let st := buildSearchIndex env st
  { st with lastUpdated := some env.now }

/-- The value returned by `getStats()`. -/
structure Stats where
  datasets : Nat
  apis : Nat
  documents : Nat
  total : Nat
  lastUpdated : Option Nat
deriving DecidableEq

/-- Model of `getStats()`. -/
def getStats (st : IndexerState) : Stats :=
  { datasets := st.datasets.length
    apis := st.apis.length
    documents := st.documents.length
    total := st.datasets.length + st.apis.length + st.documents.length
    lastUpdated := st.lastUpdated }

/-- Model of `addCustomData(data)`: the spread `{ id: custom-…, ...data, … }` lets a
caller-supplied `id` override the generated one; `lastUpdated` and
`category` are (re)assigned after the spread; the record is routed to the
collection named by `data.category` (default: documents); the index is
rebuilt. -/
def addCustomData (env : Env) (data : Record) (st : IndexerState) :
    IndexerState × Record :=
  let item :=
    { data with
      id := if data.id ≠ "" then data.id else "custom-" ++ toString env.now
      lastUpdated := env.now
      category := if data.category ≠ "" then data.category else "custom" }
  let st :=
    if data.category = "dataset" then { st with datasets := st.datasets ++ [item] }
    else if data.category = "api" then { st with apis := st.apis ++ [item] }
    else { st with documents := st.documents ++ [item] }
  (buildSearchIndex env st, item)

/-! ## Derived characterisations and concrete fixtures (used by theorems) -/

/-- No two adjacent hyphens (the canonical-form invariant produced by
`squeezeDashes`). -/
def noAdjDash : List Char → Bool
  | [] => true
  | [_] => true
  | c :: d :: rest => !(c == '-' && d == '-') && noAdjDash (d :: rest)

/-- The first character is not a hyphen. -/
def noLeadDash : List Char → Bool
  | [] => true
  | c :: _ => !(c == '-')

/-- The last character is not a hyphen. -/
def noTrailDash : List Char → Bool
  | [] => true
  | [c] => !(c == '-')
  | _ :: d :: rest => noTrailDash (d :: rest)

/-- The datasets `fetchABSData` contributes: one record exactly when the
codelist request succeeded with a truthy body. -/
def absDatasetsOf (env : Env) : List Record :=
  if env.absCodelist = FetchOutcome.ok then [absCodelistRecord env.now] else []

/-- The APIs `fetchABSData` contributes: the dataflow record, reachable only
when the codelist request did not throw. -/
def absApisOf (env : Env) : List Record :=
  if env.absCodelist ≠ FetchOutcome.fail ∧ env.absDataflow = FetchOutcome.ok
  then [absDataflowRecord env.now] else []

/-- The documents `fetchABSData` contributes. -/
def absDocsOf (env : Env) : List Record :=
  if env.absCodelist ≠ FetchOutcome.fail ∧ env.absDataflow ≠ FetchOutcome.fail ∧
     env.absOpenapi = FetchOutcome.ok
  then [absOpenapiRecord env.now] else []

/-- A record hit by both the exact and the fuzzy strategy in the dedup
counterexample. -/
def recC2 : Record := { id := "r1", title := "Ball" }

/-- An index oracle on which the exact-phrase query scores worse (higher raw
score) than the plain fuzzy query for the same record — a combination
Fuse.js is free to produce. -/
def oracleC2 : String → List FuseHit := fun q =>
  if q = "\"ball\"" then [{ item := recC2, score := mkRat 1 2 }]
  else if q = "ball" then [{ item := recC2, score := mkRat 1 4 }]
  else []

/-- State with the `oracleC2` index installed. -/
def stC2 : IndexerState := { searchIndex := some oracleC2 }

/-- A record whose text contains a space (for the whitespace-query
counterexample). -/
def recWs : Record := { id := "w1", title := "has space" }

/-- An index oracle under which the extended-search exact-phrase query for a
single space matches `recWs` (as Fuse.js substring matching does for any
text containing a space). -/
def oracleWs : String → List FuseHit := fun q =>
  if q = "\" \"" then [{ item := recWs, score := mkRat 1 10 }] else []

/-- State with the `oracleWs` index installed. -/
def stWs : IndexerState := { searchIndex := some oracleWs }

/-- An environment in which every network request fails and the index
builder returns the empty index. -/
def envNone : Env := {}

/-- A crawled section record present before a refresh. -/
def secRec0 : Record := { id := "old-section", title := "Old section", type := "section" }

/-- A custom dataset submission. -/
def customDs : Record := { title := "My custom dataset", category := "dataset" }

/-- A pre-refresh state holding one crawled section. -/
def stPre : IndexerState := { contentSections := [secRec0] }

/-- State `stPre` after `addCustomData` routed the custom dataset into
`datasets`. -/
def stWithCustom : IndexerState := (addCustomData envNone customDs stPre).1

/-- A concrete query analysis (no context, not specific). -/
def qaW : QueryAnalysis :=
  { originalQuery := "q", words := [], locations := [], topics := [],
    govLevels := [], hasContext := false, isSpecific := false }

/-- Concrete exact-strategy hit for the dedup witness. -/
def hitExact : ScoredHit := { item := recC2, score := mkRat 1 2, searchType := "exact" }

/-- Concrete fuzzy-strategy hit for the dedup witness (strictly better raw
score). -/
def hitFuzzy : ScoredHit := { item := recC2, score := mkRat 1 4, searchType := "fuzzy" }

/-- Crawl options with `maxDepth = 2` for the depth-bound witness. -/
def opts5 : CrawlOpts := { source := "s", tags := [], maxDepth := 2 }

/-- A pre-existing document for the depth-bound witness. -/
def docW : Record := { id := "d0", title := "existing", crawlDepth := 0 }

/-- A state holding `docW`. -/
def st5 : IndexerState := { documents := [docW] }

/-- Concrete heading occurrence for the section-id witness. -/
def hw : HeadingOcc := { level := 2, text := "Hello World", following := [] }

/-- The section `buildSections` emits for `hw`. -/
def sec0 : Section :=
  { id := "hello-world", title := "Hello World", content := "", level := 2,
    path := [], tags := [], url := "https://ex.gov#hello-world" }

/-- How one (sub)crawl may transform the state, relative to depth `d` and
the depth bound: `datasets`/`apis` and the index are untouched, sections and
the visited set only grow, and every new document was emitted at recursion
depth between `d` (inclusive) and the bound (exclusive). -/
def crawlRel (d maxD : Nat) (st st' : IndexerState) : Prop :=
  st'.datasets = st.datasets ∧
  st'.apis = st.apis ∧
  (∃ a, st'.contentSections = st.contentSections ++ a) ∧
  (∃ v, st'.crawledUrls = st.crawledUrls ++ v) ∧
  st'.searchIndex = st.searchIndex ∧
  st'.lastUpdated = st.lastUpdated ∧
  (∀ doc, doc ∈ st'.documents →
    doc ∈ st.documents ∨ (d ≤ doc.crawlDepth ∧ doc.crawlDepth < maxD))

/-- The at-most-once-fetch invariant: the (ghost) fetch log has no
duplicates and only contains visited URLs. -/
def fetchInv (st : IndexerState) : Prop :=
  st.fetchLog.Nodup ∧ ∀ u ∈ st.fetchLog, u ∈ st.crawledUrls

/-! ## Lemmas: the slug pipeline -/

theorem isLowerAlnum_ranges (c : Char) :
    isLowerAlnum c = true ↔
      (97 ≤ c.toNat ∧ c.toNat ≤ 122) ∨ (48 ≤ c.toNat ∧ c.toNat ≤ 57) := by
  simp [isLowerAlnum]

theorem jsToLower_of_dashify (c : Char) : jsToLower (dashify c) = dashify c := by
  unfold dashify
  by_cases h : isLowerAlnum c = true
  · rw [if_pos h]
    unfold jsToLower
    rcases (isLowerAlnum_ranges c).mp h with h1 | h1 <;>
      · rw [if_neg]; omega
  · rw [if_neg h]; decide

theorem dashify_of_dashify (c : Char) : dashify (dashify c) = dashify c := by
  unfold dashify
  by_cases h : isLowerAlnum c = true
  · rw [if_pos h, if_pos h]
  · rw [if_neg h]; decide

theorem mem_squeezeDashes (l : List Char) (c : Char) (h : c ∈ squeezeDashes l) : c ∈ l := by
  induction l with
  | nil => simp [squeezeDashes] at h
  | cons a tl ih =>
    cases tl with
    | nil => simpa [squeezeDashes] using h
    | cons b tl' =>
      rw [squeezeDashes] at h
      split at h
      · exact List.mem_cons_of_mem _ (ih h)
      · rcases List.mem_cons.mp h with h1 | h2
        · exact h1 ▸ List.mem_cons_self _ _
        · exact List.mem_cons_of_mem _ (ih h2)

theorem mem_dropLeadingDash (l : List Char) (c : Char) (h : c ∈ dropLeadingDash l) : c ∈ l := by
  cases l with
  | nil => simp [dropLeadingDash] at h
  | cons a tl =>
    rw [dropLeadingDash] at h
    split at h
    · exact List.mem_cons_of_mem _ h
    · exact h

theorem mem_dropTrailingDash (l : List Char) (c : Char) (h : c ∈ dropTrailingDash l) : c ∈ l := by
  induction l with
  | nil => simp [dropTrailingDash] at h
  | cons a tl ih =>
    cases tl with
    | nil =>
      rw [dropTrailingDash] at h
      split at h
      · simp at h
      · exact h
    | cons b tl' =>
      rw [dropTrailingDash] at h
      rcases List.mem_cons.mp h with h1 | h2
      · exact h1 ▸ List.mem_cons_self _ _
      · exact List.mem_cons_of_mem _ (ih h2)

theorem squeezeDashes_cons (l : List Char) :
    ∀ c : Char, ∃ t, squeezeDashes (c :: l) = c :: t := by
  induction l with
  | nil => intro c; exact ⟨[], rfl⟩
  | cons d rest ih =>
    intro c
    rw [squeezeDashes]
    split
    · rename_i hcd
      rcases ih d with ⟨t, ht⟩
      have hc : c = '-' := by
        have := (Bool.and_eq_true _ _).mp hcd
        exact eq_of_beq this.1
      have hd : d = '-' := by
        have := (Bool.and_eq_true _ _).mp hcd
        exact eq_of_beq this.2
      exact ⟨t, by rw [ht, hc, hd]⟩
    · exact ⟨squeezeDashes (d :: rest), rfl⟩

theorem noAdjDash_cons₂ (c d : Char) (rest : List Char) :
    noAdjDash (c :: d :: rest) = true ↔
      (c == '-' && d == '-') = false ∧ noAdjDash (d :: rest) = true := by
  show (!(c == '-' && d == '-') && noAdjDash (d :: rest)) = true ↔ _
  cases hcd : (c == '-' && d == '-') <;> simp [hcd]

theorem noAdjDash_squeezeDashes (l : List Char) : noAdjDash (squeezeDashes l) = true := by
  induction l with
  | nil => rfl
  | cons c tl ih =>
    cases tl with
    | nil => rfl
    | cons d rest =>
      rw [squeezeDashes]
      split
      · exact ih
      · rename_i hcd
        rcases squeezeDashes_cons rest d with ⟨t, ht⟩
        rw [ht]
        rw [ht] at ih
        exact (noAdjDash_cons₂ c d t).mpr ⟨Bool.eq_false_iff.mpr hcd, ih⟩

theorem noAdjDash_tail (c : Char) (l : List Char) (h : noAdjDash (c :: l) = true) :
    noAdjDash l = true := by
  cases l with
  | nil => rfl
  | cons d rest =>
    simp only [noAdjDash, Bool.and_eq_true] at h
    exact h.2

theorem squeezeDashes_of_noAdjDash (l : List Char) (h : noAdjDash l = true) :
    squeezeDashes l = l := by
  induction l with
  | nil => rfl
  | cons c tl ih =>
    cases tl with
    | nil => rfl
    | cons d rest =>
      rcases (noAdjDash_cons₂ c d rest).mp h with ⟨h1, h2⟩
      rw [squeezeDashes, if_neg (by simp [h1]), ih h2]

theorem dropTrailingDash_cons (d : Char) (l : List Char) :
    dropTrailingDash (d :: l) = [] ∨ ∃ t, dropTrailingDash (d :: l) = d :: t := by
  cases l with
  | nil =>
    by_cases h : d == '-'
    · left; rw [dropTrailingDash, if_pos h]
    · right; exact ⟨[], by rw [dropTrailingDash, if_neg h]⟩
  | cons e rest => right; exact ⟨dropTrailingDash (e :: rest), rfl⟩

theorem noAdjDash_dropLeadingDash (l : List Char) (h : noAdjDash l = true) :
    noAdjDash (dropLeadingDash l) = true := by
  cases l with
  | nil => rfl
  | cons c rest =>
    rw [dropLeadingDash]
    split
    · exact noAdjDash_tail c rest h
    · exact h

theorem noAdjDash_dropTrailingDash (l : List Char) (h : noAdjDash l = true) :
    noAdjDash (dropTrailingDash l) = true := by
  induction l with
  | nil => rfl
  | cons c tl ih =>
    cases tl with
    | nil =>
      rw [dropTrailingDash]
      split <;> rfl
    | cons d rest =>
      rcases (noAdjDash_cons₂ c d rest).mp h with ⟨h1, h2⟩
      have ih' := ih h2
      rw [dropTrailingDash]
      rcases dropTrailingDash_cons d rest with h0 | ⟨t, ht⟩
      · rw [h0]; rfl
      · rw [ht]
        rw [ht] at ih'
        exact (noAdjDash_cons₂ c d t).mpr ⟨h1, ih'⟩

theorem noLeadDash_dropLeadingDash (l : List Char) (h : noAdjDash l = true) :
    noLeadDash (dropLeadingDash l) = true := by
  cases l with
  | nil => rfl
  | cons c rest =>
    rw [dropLeadingDash]
    split
    · rename_i hc
      cases rest with
      | nil => rfl
      | cons d rest' =>
        rcases (noAdjDash_cons₂ c d rest').mp h with ⟨h1, _⟩
        rw [hc, Bool.true_and] at h1
        show (!(d == '-')) = true
        rw [h1]
        rfl
    · rename_i hc
      show (!(c == '-')) = true
      rw [Bool.eq_false_iff.mpr hc]
      rfl

theorem noLeadDash_dropTrailingDash (l : List Char) (h : noLeadDash l = true) :
    noLeadDash (dropTrailingDash l) = true := by
  cases l with
  | nil => rfl
  | cons c tl =>
    cases tl with
    | nil =>
      rw [dropTrailingDash]
      split
      · rfl
      · exact h
    | cons d rest =>
      rw [dropTrailingDash]
      simpa [noLeadDash] using h

theorem noTrailDash_dropTrailingDash (l : List Char) (h : noAdjDash l = true) :
    noTrailDash (dropTrailingDash l) = true := by
  induction l with
  | nil => rfl
  | cons c tl ih =>
    cases tl with
    | nil =>
      rw [dropTrailingDash]
      split
      · rfl
      · rename_i hc
        show (!(c == '-')) = true
        rw [Bool.eq_false_iff.mpr hc]
        rfl
    | cons d rest =>
      rcases (noAdjDash_cons₂ c d rest).mp h with ⟨h1, h2⟩
      have ih' := ih h2
      rw [dropTrailingDash]
      rcases dropTrailingDash_cons d rest with h0 | ⟨t, ht⟩
      · rw [h0]
        show (!(c == '-')) = true
        cases hc : (c == '-') with
        | false => rfl
        | true =>
          rw [hc, Bool.true_and] at h1
          cases rest with
          | nil =>
            rw [dropTrailingDash] at h0
            split at h0
            · rename_i hd
              rw [hd] at h1
              exact absurd h1 (by simp)
            · exact absurd h0 (by simp)
          | cons e rest' =>
            rw [dropTrailingDash] at h0
            exact absurd h0 (by simp)
      · rw [ht]
        rw [ht] at ih'
        show noTrailDash (c :: d :: t) = true
        exact ih'

theorem dropLeadingDash_of_noLeadDash (l : List Char) (h : noLeadDash l = true) :
    dropLeadingDash l = l := by
  cases l with
  | nil => rfl
  | cons c rest =>
    rw [dropLeadingDash, if_neg]
    intro hc
    rw [show noLeadDash (c :: rest) = (!(c == '-')) from rfl, hc] at h
    exact absurd h (by simp)

theorem dropTrailingDash_of_noTrailDash (l : List Char) (h : noTrailDash l = true) :
    dropTrailingDash l = l := by
  induction l with
  | nil => rfl
  | cons c tl ih =>
    cases tl with
    | nil =>
      rw [dropTrailingDash, if_neg]
      intro hc
      rw [show noTrailDash [c] = (!(c == '-')) from rfl, hc] at h
      exact absurd h (by simp)
    | cons d rest =>
      rw [dropTrailingDash, ih h]

theorem map_self_of {α : Type} (f : α → α) (l : List α) (h : ∀ c ∈ l, f c = c) :
    l.map f = l := by
  induction l with
  | nil => rfl
  | cons a tl ih =>
    rw [List.map_cons, h a (List.mem_cons_self a tl), ih fun c hc => h c (List.mem_cons_of_mem a hc)]

theorem generateId_fixes_canonical (m : List Char) :
    generateId ⟨dropTrailingDash (dropLeadingDash (squeezeDashes (m.map dashify)))⟩
      = ⟨dropTrailingDash (dropLeadingDash (squeezeDashes (m.map dashify)))⟩ := by
  set q := squeezeDashes (m.map dashify) with hq
  set out := dropTrailingDash (dropLeadingDash q) with hout
  have hqAdj : noAdjDash q = true := noAdjDash_squeezeDashes _
  have houtAdj : noAdjDash out = true :=
    noAdjDash_dropTrailingDash _ (noAdjDash_dropLeadingDash _ hqAdj)
  have houtLead : noLeadDash out = true :=
    noLeadDash_dropTrailingDash _ (noLeadDash_dropLeadingDash _ hqAdj)
  have houtTrail : noTrailDash out = true :=
    noTrailDash_dropTrailingDash _ (noAdjDash_dropLeadingDash _ hqAdj)
  have hclosed : ∀ c ∈ out, ∃ x, c = dashify x := by
    intro c hc
    have h1 := mem_dropLeadingDash _ _ (mem_dropTrailingDash _ _ hc)
    have h2 := mem_squeezeDashes _ _ h1
    rcases List.mem_map.mp h2 with ⟨x, _, hx⟩
    exact ⟨x, hx.symm⟩
  have e1 : out.map jsToLower = out :=
    map_self_of _ _ fun c hc => by
      rcases hclosed c hc with ⟨x, rfl⟩
      exact jsToLower_of_dashify x
  have e2 : out.map dashify = out :=
    map_self_of _ _ fun c hc => by
      rcases hclosed c hc with ⟨x, rfl⟩
      exact dashify_of_dashify x
  show (⟨dropTrailingDash (dropLeadingDash (squeezeDashes ((out.map jsToLower).map dashify)))⟩ : String) = ⟨out⟩
  rw [e1, e2, squeezeDashes_of_noAdjDash _ houtAdj,
    dropLeadingDash_of_noLeadDash _ houtLead,
    dropTrailingDash_of_noTrailDash _ houtTrail]

theorem generateId_idem (s : String) : generateId (generateId s) = generateId s :=
  generateId_fixes_canonical (s.data.map jsToLower)

/-- Claim C8. The id-slug function `generateId` is idempotent; any two inputs
whose characters agree after lower-casing-and-dashifying (in particular,
inputs differing only in letter case, or only in punctuation versus hyphen)
receive the same id; and `generateId "ABS Census 2021!" = "abs-census-2021"`. -/
theorem claim_C8_generateId :
    (∀ s : String, generateId (generateId s) = generateId s) ∧
    (∀ s t : String,
        s.data.map (fun c => dashify (jsToLower c)) =
          t.data.map (fun c => dashify (jsToLower c)) →
        generateId s = generateId t) ∧
    generateId "ABS Census 2021!" = "abs-census-2021" := by
  refine ⟨generateId_idem, ?_, by decide⟩
  intro s t h
  unfold generateId
  have hmap : (s.data.map jsToLower).map dashify = (t.data.map jsToLower).map dashify := by
    rw [List.map_map, List.map_map]
    exact h
  rw [hmap]

/-- Witness for C8: the case-and-punctuation invariance applied at the
concrete pair `"ABS-1"` / `"abs 1"`. -/
theorem claim_C8_witness : generateId "ABS-1" = generateId "abs 1" :=
  claim_C8_generateId.2.1 "ABS-1" "abs 1" (by decide)

/-- Claim C7. For every heading (any level, any sibling chain), the Section
content produced by `extractSectionContent` has length at most 1000
characters: the truncation `substring(0, 1000)` is unconditional and
silent. -/
theorem claim_C7_truncation (headingLevel : Nat) (siblings : List DomNode) :
    (extractSectionContent headingLevel siblings).length ≤ 1000 := by
  show (List.take 1000 (jsTrim (collectContent headingLevel siblings)).data).length ≤ 1000
  rw [List.length_take]
  exact min_le_left _ _

theorem buildSectionsAux_shape (url : String) :
    ∀ (headings : List HeadingOcc) (acc : List Section),
      (∀ s ∈ acc, s.id = jsSubstring (generateId s.title) 50 ∧ s.url = url ++ "#" ++ s.id) →
      ∀ sec ∈ buildSectionsAux url acc headings,
        sec.id = jsSubstring (generateId sec.title) 50 ∧ sec.url = url ++ "#" ++ sec.id := by
  intro headings
  induction headings with
  | nil =>
    intro acc hacc sec hsec
    exact hacc sec hsec
  | cons h rest ih =>
    intro acc hacc sec hsec
    rw [buildSectionsAux] at hsec
    split at hsec
    · exact ih acc hacc sec hsec
    · refine ih _ ?_ sec hsec
      intro s hs
      rcases List.mem_append.mp hs with hs | hs
      · exact hacc s hs
      · rcases List.mem_singleton.mp hs with rfl
        exact ⟨rfl, rfl⟩

/-- Claim C10. Every Section id produced during page parsing is the
`generateId` slug of the (trimmed) heading text truncated to 50 characters,
and the id is also the fragment of the section's anchor URL; consequently
the id length never exceeds 50, and two headings whose slugs agree on their
first 50 characters receive the same section id. -/
theorem claim_C10_section_id :
    (∀ (url : String) (headings : List HeadingOcc) (sec : Section),
        sec ∈ buildSections url headings →
        sec.id = jsSubstring (generateId sec.title) 50 ∧
        sec.url = url ++ "#" ++ sec.id ∧ sec.id.length ≤ 50) ∧
    (∀ t1 t2 : String,
        jsSubstring (generateId t1) 50 = jsSubstring (generateId t2) 50 →
        generateSectionId t1 = generateSectionId t2) := by
  constructor
  · intro url headings sec hsec
    rcases buildSectionsAux_shape url headings [] (by intro s hs; simp at hs) sec hsec with ⟨h1, h2⟩
    refine ⟨h1, h2, ?_⟩
    rw [h1]
    show (List.take 50 (generateId sec.title).data).length ≤ 50
    rw [List.length_take]
    exact min_le_left _ _
  · intro t1 t2 h
    exact h

/-- Witness for C10: the single heading `"Hello World"` at level 2 yields
the section `sec0`, whose id is the 50-truncated slug of its title. -/
theorem claim_C10_witness :
    sec0 ∈ buildSections "https://ex.gov" [hw] ∧
      sec0.id = jsSubstring (generateId sec0.title) 50 :=
  have hm : sec0 ∈ buildSections "https://ex.gov" [hw] := by decide
  ⟨hm, (claim_C10_section_id.1 "https://ex.gov" [hw] sec0 hm).1⟩

theorem strategyBonus_eq_spec (t : String) : strategyBonus t = specStrategyBonus t := rfl

theorem contextBonus_eq_spec (cs : Option ℚ) :
    (match cs with
     | some c => if c = 0 then (0 : ℚ) else c
     | none => 0) = specContextVal cs := by
  rcases cs with _ | c
  · rfl
  · show (if c = 0 then (0 : ℚ) else c) = c
    by_cases hc : c = 0
    · rw [if_pos hc, hc]
    · rw [if_neg hc]

theorem calculateRelevanceScore_eq_spec (h : ScoredHit) (qa : QueryAnalysis) :
    calculateRelevanceScore h qa = specCompositeScore h qa := by
  unfold calculateRelevanceScore specCompositeScore
  rw [contextBonus_eq_spec, strategyBonus_eq_spec]

theorem relevance_strategy_mono (qa : QueryAnalysis) (item : Record) (s : ℚ)
    (cs : Option ℚ) (h1 : s ≤ 1) (hcs : ∀ c, cs = some c → 0 ≤ c) :
    calculateRelevanceScore { item := item, score := s, contextScore := cs, searchType := "semantic" } qa >
      calculateRelevanceScore { item := item, score := s, contextScore := cs, searchType := "exact" } qa ∧
    calculateRelevanceScore { item := item, score := s, contextScore := cs, searchType := "exact" } qa >
      calculateRelevanceScore { item := item, score := s, contextScore := cs, searchType := "fuzzy" } qa ∧
    calculateRelevanceScore { item := item, score := s, contextScore := cs, searchType := "fuzzy" } qa >
      calculateRelevanceScore { item := item, score := s, contextScore := cs, searchType := "partial" } qa := by
  have hctx : 0 ≤ specContextVal cs := by
    rcases cs with _ | c
    · exact le_refl 0
    · exact hcs c rfl
  have hb : (0 : ℚ) ≤ (if qa.isSpecific ∧ item.category = "section" then (20 : ℚ) else 0) := by
    split
    · norm_num
    · exact le_refl 0
  have hs100 : s * 100 ≤ 100 := by nlinarith
  have key : ∀ t : String,
      calculateRelevanceScore { item := item, score := s, contextScore := cs, searchType := t } qa =
        max 0 (100 + specStrategyBonus t - s * 100 + specContextVal cs +
          (if qa.isSpecific ∧ item.category = "section" then 20 else 0)) := fun t =>
    calculateRelevanceScore_eq_spec _ qa
  have pos : ∀ b : ℚ, 10 ≤ b →
      max 0 (100 + b - s * 100 + specContextVal cs +
        (if qa.isSpecific ∧ item.category = "section" then (20 : ℚ) else 0)) =
      100 + b - s * 100 + specContextVal cs +
        (if qa.isSpecific ∧ item.category = "section" then 20 else 0) := by
    intro b hbb
    apply max_eq_right
    linarith
  have e50 : specStrategyBonus "semantic" = 50 := rfl
  have e40 : specStrategyBonus "exact" = 40 := rfl
  have e20 : specStrategyBonus "fuzzy" = 20 := rfl
  have e10 : specStrategyBonus "partial" = 10 := rfl
  refine ⟨?_, ?_, ?_⟩
  · rw [key, key, e50, e40, pos 50 (by norm_num), pos 40 (by norm_num)]
    linarith
  · rw [key, key, e40, e20, pos 40 (by norm_num), pos 20 (by norm_num)]
    linarith
  · rw [key, key, e20, e10, pos 20 (by norm_num), pos 10 (by norm_num)]
    linarith

/-- Claim C1. The composite relevance score returned by
`calculateRelevanceScore` equals
`max(0, 100 + strategyBonus - rawScore*100 + contextScore + specificSectionBonus)`,
with strategy bonus 50/40/20/10 for semantic/exact/fuzzy/partial, the
context score added exactly when present, and +20 exactly when the analysis
is specific and the record's category is `section`; consequently, for two
hits identical in raw score (within Fuse.js's `[0,1]` range), context score
and record, differing only in strategy, semantic scores strictly above
exact, exact above fuzzy, and fuzzy above partial — and `search` sorts
descending by this score. -/
theorem claim_C1_composite_score :
    (∀ (h : ScoredHit) (qa : QueryAnalysis),
        calculateRelevanceScore h qa = specCompositeScore h qa) ∧
    (∀ (qa : QueryAnalysis) (item : Record) (s : ℚ) (cs : Option ℚ),
        s ≤ 1 → (∀ c, cs = some c → 0 ≤ c) →
        calculateRelevanceScore { item := item, score := s, contextScore := cs, searchType := "semantic" } qa >
          calculateRelevanceScore { item := item, score := s, contextScore := cs, searchType := "exact" } qa ∧
        calculateRelevanceScore { item := item, score := s, contextScore := cs, searchType := "exact" } qa >
          calculateRelevanceScore { item := item, score := s, contextScore := cs, searchType := "fuzzy" } qa ∧
        calculateRelevanceScore { item := item, score := s, contextScore := cs, searchType := "fuzzy" } qa >
          calculateRelevanceScore { item := item, score := s, contextScore := cs, searchType := "partial" } qa) :=
  ⟨calculateRelevanceScore_eq_spec, relevance_strategy_mono⟩

/-- Witness for C1: the strategy monotonicity applied at a concrete hit
(raw score `1/4`, no context score, the `qaW` analysis). -/
theorem claim_C1_witness :
    calculateRelevanceScore { item := recC2, score := mkRat 1 4, contextScore := none, searchType := "semantic" } qaW >
      calculateRelevanceScore { item := recC2, score := mkRat 1 4, contextScore := none, searchType := "exact" } qaW :=
  (claim_C1_composite_score.2 qaW recC2 (mkRat 1 4) none (by decide)
    (fun c hc => by cases hc)).1

theorem lookup_replaceVal (k : String) (v : RankedHit) :
    ∀ acc : List (String × RankedHit), ∀ e, acc.lookup k = some e →
      (replaceVal k v acc).lookup k = some v := by
  intro acc
  induction acc with
  | nil => intro e he; cases he
  | cons p rest ih =>
    intro e he
    rcases p with ⟨k', v'⟩
    by_cases hk : k' = k
    · subst hk
      rw [replaceVal, if_pos rfl]
      simp [List.lookup]
    · rw [replaceVal, if_neg hk]
      rw [List.lookup] at he ⊢
      have : (k == k') = false := by
        simp only [beq_eq_false_iff_ne, ne_eq]
        exact fun h => hk h.symm
      rw [this] at he ⊢
      exact ih e he

theorem lookup_unchanged_replaceVal (k k0 : String) (v : RankedHit) (hne : k0 ≠ k) :
    ∀ acc : List (String × RankedHit),
      (replaceVal k v acc).lookup k0 = acc.lookup k0 := by
  intro acc
  induction acc with
  | nil => rfl
  | cons p rest ih =>
    rcases p with ⟨k', v'⟩
    by_cases hk : k' = k
    · subst hk
      rw [replaceVal, if_pos rfl]
      rw [List.lookup, List.lookup]
      have : (k0 == k') = false := by
        simp only [beq_eq_false_iff_ne, ne_eq]
        exact hne
      rw [this]
    · rw [replaceVal, if_neg hk]
      rw [List.lookup, List.lookup]
      cases hk0 : (k0 == k')
      · exact ih
      · rfl

theorem map_fst_replaceVal (k : String) (v : RankedHit) :
    ∀ acc : List (String × RankedHit),
      (replaceVal k v acc).map Prod.fst = acc.map Prod.fst := by
  intro acc
  induction acc with
  | nil => rfl
  | cons p rest ih =>
    rcases p with ⟨k', v'⟩
    by_cases hk : k' = k
    · subst hk
      rw [replaceVal, if_pos rfl]
      simp only [List.map_cons]
    · rw [replaceVal, if_neg hk]
      simp only [List.map_cons, ih]

theorem lookup_none_not_mem_fst (k : String) :
    ∀ acc : List (String × RankedHit), acc.lookup k = none → k ∉ acc.map Prod.fst := by
  intro acc
  induction acc with
  | nil => intro _ h; simp at h
  | cons p rest ih =>
    rcases p with ⟨k', v'⟩
    intro hl hm
    rw [List.lookup] at hl
    rcases List.mem_cons.mp hm with hm | hm
    · rw [show (k == k') = true from beq_iff_eq.mpr hm] at hl
      cases hl
    · cases hk : (k == k') with
      | true => rw [hk] at hl; cases hl
      | false =>
        rw [hk] at hl
        exact ih hl hm

theorem dedupStep_of_lookup_none (qa : QueryAnalysis) (acc : List (String × RankedHit))
    (h : ScoredHit) (hl : acc.lookup (dedupKey h) = none) :
    dedupStep qa acc h = acc ++ [(dedupKey h, toRanked qa h)] := by
  simp only [dedupStep]
  rw [hl]

theorem dedupStep_of_lookup_some (qa : QueryAnalysis) (acc : List (String × RankedHit))
    (h : ScoredHit) (e : RankedHit) (hl : acc.lookup (dedupKey h) = some e) :
    dedupStep qa acc h =
      if h.searchType = "semantic" ∨ (e.score > h.score ∧ h.searchType ≠ "partial")
      then replaceVal (dedupKey h) (toRanked qa h) acc
      else acc := by
  simp only [dedupStep]
  rw [hl]

theorem dedupStep_keys_nodup (qa : QueryAnalysis) (acc : List (String × RankedHit))
    (h : ScoredHit) (hacc : (acc.map Prod.fst).Nodup) :
    ((dedupStep qa acc h).map Prod.fst).Nodup := by
  cases hl : acc.lookup (dedupKey h) with
  | none =>
    rw [dedupStep_of_lookup_none qa acc h hl]
    rw [List.map_append]
    simp only [List.map_cons, List.map_nil]
    rw [List.nodup_append]
    refine ⟨hacc, List.nodup_singleton _, ?_⟩
    intro a ha hb
    rcases List.mem_singleton.mp hb with rfl
    exact lookup_none_not_mem_fst _ acc hl ha
  | some e =>
    rw [dedupStep_of_lookup_some qa acc h e hl]
    split
    · rw [map_fst_replaceVal]
      exact hacc
    · exact hacc

theorem dedup_keys_nodup (qa : QueryAnalysis) :
    ∀ (hits : List ScoredHit) (acc : List (String × RankedHit)),
      (acc.map Prod.fst).Nodup → ((hits.foldl (dedupStep qa) acc).map Prod.fst).Nodup := by
  intro hits
  induction hits with
  | nil => intro acc h; exact h
  | cons h rest ih =>
    intro acc hacc
    rw [List.foldl_cons]
    exact ih _ (dedupStep_keys_nodup qa acc h hacc)

/-- Claim C2. Search-result deduplication groups hits by record id (falling
back to the title): the per-key stored hit is replaced exactly when the
incoming hit is semantic, or has a strictly lower raw score and is not a
partial hit (so a partial hit never overrides anything, and keys are unique
in the output); amended: for a record hit by both the exact and the fuzzy
strategy (exact processed first, as `search` pushes exact results before
fuzzy ones), the output retains exactly one entry for it, tagged `exact`
when the exact raw score is not strictly greater than the fuzzy one, and
`fuzzy` otherwise — not unconditionally `exact` as claimed. -/
theorem claim_C2_dedup_rule :
    (∀ (qa : QueryAnalysis) (acc : List (String × RankedHit)) (h : ScoredHit) (e : RankedHit),
        acc.lookup (dedupKey h) = some e →
        (dedupStep qa acc h).lookup (dedupKey h) =
          some (if h.searchType = "semantic" ∨ (e.score > h.score ∧ h.searchType ≠ "partial")
                then toRanked qa h else e)) ∧
    (∀ (qa : QueryAnalysis) (acc : List (String × RankedHit)) (h : ScoredHit) (e : RankedHit),
        acc.lookup (dedupKey h) = some e → h.searchType = "partial" →
        dedupStep qa acc h = acc) ∧
    (∀ (qa : QueryAnalysis) (hits : List ScoredHit),
        ((hits.foldl (dedupStep qa) []).map Prod.fst).Nodup) ∧
    (∀ (qa : QueryAnalysis) (h1 h2 : ScoredHit),
        dedupKey h1 = dedupKey h2 → h1.searchType = "exact" → h2.searchType = "fuzzy" →
        dedupHits qa [h1, h2] = [toRanked qa (if h1.score > h2.score then h2 else h1)]) := by
  refine ⟨?_, ?_, ?_, ?_⟩
  · intro qa acc h e hl
    rw [dedupStep_of_lookup_some qa acc h e hl]
    by_cases hcond : h.searchType = "semantic" ∨ (e.score > h.score ∧ h.searchType ≠ "partial")
    · rw [if_pos hcond, if_pos hcond]
      exact lookup_replaceVal _ _ acc e hl
    · rw [if_neg hcond, if_neg hcond]
      exact hl
  · intro qa acc h e hl hp
    rw [dedupStep_of_lookup_some qa acc h e hl, if_neg]
    intro hcond
    rcases hcond with hcond | hcond
    · rw [hp] at hcond
      exact absurd hcond (by decide)
    · exact hcond.2 hp
  · intro qa hits
    exact dedup_keys_nodup qa hits [] (by simp)
  · intro qa h1 h2 hk he hf
    unfold dedupHits
    rw [List.foldl_cons, List.foldl_cons, List.foldl_nil]
    rw [dedupStep_of_lookup_none qa [] h1 rfl]
    rw [List.nil_append]
    have hl2 : ([(dedupKey h1, toRanked qa h1)] : List (String × RankedHit)).lookup (dedupKey h2)
        = some (toRanked qa h1) := by
      rw [List.lookup, show (dedupKey h2 == dedupKey h1) = true from beq_iff_eq.mpr hk.symm]
    rw [dedupStep_of_lookup_some qa _ h2 _ hl2]
    by_cases hgt : (toRanked qa h1).score > h2.score
    · rw [if_pos]
      · rw [replaceVal, if_pos hk]
        rw [if_pos (by exact hgt)]
        simp [toRanked]
      · refine Or.inr ⟨hgt, ?_⟩
        rw [hf]
        decide
    · rw [if_neg, if_neg (by exact hgt)]
      · simp [toRanked]
      · intro hcond
        rcases hcond with hcond | hcond
        · rw [hf] at hcond
          exact absurd hcond (by decide)
        · exact hgt hcond.1

/-- Counterexample for C2 as originally stated: under the index oracle
`oracleC2` (exact-phrase raw score `1/2`, fuzzy raw score `1/4` for the same
record) the deduplicated search output retains one entry tagged `fuzzy`, not
`exact`. -/
theorem claim_C2_counterexample :
    (search stC2 "ball" {}).results.map (fun r => r.searchType) = ["fuzzy"] := by
  decide

/-- Witness for C2 (amended): the exact/fuzzy merge rule applied at the
concrete pair `hitExact` / `hitFuzzy`. -/
theorem claim_C2_witness :
    dedupHits qaW [hitExact, hitFuzzy] =
      [toRanked qaW (if hitExact.score > hitFuzzy.score then hitFuzzy else hitExact)] :=
  claim_C2_dedup_rule.2.2.2 qaW hitExact hitFuzzy (by decide) (by decide) (by decide)

/-- Claim C6. `search` returns the empty result sentinel
(`results: [], total: 0`) — it is a total function, so no exception can be
raised — whenever the index is unbuilt or the query is the empty string.
Amended: the early return covers exactly the unbuilt index and the empty
string (JS `!query`); a whitespace-only query is *not* short-circuited and
runs the full strategy pipeline. -/
theorem claim_C6_empty_guard (st : IndexerState) (query : String) (opts : SearchOptions)
    (hguard : st.searchIndex = none ∨ query = "") :
    (search st query opts).results = [] ∧ (search st query opts).total = 0 := by
  rcases hguard with hidx | hq
  · unfold search
    rw [hidx]
    exact ⟨rfl, rfl⟩
  · subst hq
    unfold search
    cases st.searchIndex with
    | none => exact ⟨rfl, rfl⟩
    | some idx =>
      exact ⟨rfl, rfl⟩

/-- Witness for C6: `search("")` on a state with an installed index, and
`search` on a state without an index, both return the empty sentinel. -/
theorem claim_C6_witness :
    (search stC2 "" {}).results = [] ∧ (search stC2 "" {}).total = 0 :=
  claim_C6_empty_guard stC2 "" {} (Or.inr rfl)

/-- Counterexample for C6 as originally stated: the whitespace-only query
`" "` is not short-circuited — under the `oracleWs` index (where the
exact-phrase pattern `"\" \""` matches a record, as Fuse.js substring
matching does for any text containing a space) it returns one hit, not the
empty result set. -/
theorem claim_C6_counterexample :
    (search stWs " " {}).total = 1 ∧
      (search stWs " " {}).results.map (fun r => r.searchType) = ["exact"] := by
  decide

/-! ## Lemmas: the deep crawler -/

theorem crawlRel_refl (d maxD : Nat) (st : IndexerState) : crawlRel d maxD st st :=
  ⟨rfl, rfl, ⟨[], by simp⟩, ⟨[], by simp⟩, rfl, rfl, fun _ h => Or.inl h⟩

theorem crawlRel_trans {d d' maxD : Nat} {st st' st'' : IndexerState}
    (hdd : d ≤ d') (h1 : crawlRel d maxD st st') (h2 : crawlRel d' maxD st' st'') :
    crawlRel d maxD st st'' := by
  obtain ⟨e1, e2, ⟨a1, e3⟩, ⟨v1, e4⟩, e5, e6, e7⟩ := h1
  obtain ⟨f1, f2, ⟨a2, f3⟩, ⟨v2, f4⟩, f5, f6, f7⟩ := h2
  refine ⟨f1.trans e1, f2.trans e2, ⟨a1 ++ a2, ?_⟩, ⟨v1 ++ v2, ?_⟩,
    f5.trans e5, f6.trans e6, ?_⟩
  · rw [f3, e3, List.append_assoc]
  · rw [f4, e4, List.append_assoc]
  · intro doc hdoc
    rcases f7 doc hdoc with h | ⟨hle, hlt⟩
    · exact e7 doc h
    · exact Or.inr ⟨le_trans hdd hle, hlt⟩

theorem foldl_pres {α : Type} (P : IndexerState → Prop) (step : IndexerState → α → IndexerState)
    (hstep : ∀ s a, P s → P (step s a)) :
    ∀ (ls : List α) (s : IndexerState), P s → P (ls.foldl step s) := by
  intro ls
  induction ls with
  | nil => intro s h; exact h
  | cons a tl ih =>
    intro s h
    rw [List.foldl_cons]
    exact ih _ (hstep s a h)

theorem nodup_append_single (l : List String) (a : String) :
    (l ++ [a]).Nodup ↔ l.Nodup ∧ a ∉ l := by
  rw [List.nodup_append]
  simp [List.disjoint_singleton]

theorem contains_false_not_mem (l : List String) (u : String)
    (h : l.contains u = false) : u ∉ l := by
  intro hm
  rw [show l.contains u = true from List.elem_iff.mpr hm] at h
  cases h

theorem crawlRel_emit (d maxD : Nat) (st : IndexerState) (url : String)
    (doc : Record) (secs : List Record) (hdep : doc.crawlDepth = d) (hd : d < maxD) :
    crawlRel d maxD st
      { st with crawledUrls := st.crawledUrls ++ [url],
                fetchLog := st.fetchLog ++ [url],
                documents := st.documents ++ [doc],
                contentSections := st.contentSections ++ secs } := by
  refine ⟨rfl, rfl, ⟨secs, rfl⟩, ⟨[url], rfl⟩, rfl, rfl, ?_⟩
  intro doc' hdoc'
  rcases List.mem_append.mp hdoc' with h | h
  · exact Or.inl h
  · rcases List.mem_singleton.mp h with rfl
    exact Or.inr ⟨le_of_eq hdep.symm, hdep ▸ hd⟩

theorem deepCrawl_crawlRel :
    ∀ (fuel : Nat) (env : Env) (opts : CrawlOpts) (url : String) (d : Nat) (st : IndexerState),
      crawlRel d opts.maxDepth st (deepCrawlWebsite env opts fuel url d st) := by
  intro fuel
  induction fuel with
  | zero =>
    intro env opts url d st
    rw [deepCrawlWebsite]
    split
    · exact crawlRel_refl _ _ _
    · exact ⟨rfl, rfl, ⟨[], (List.append_nil _).symm⟩, ⟨[url], rfl⟩, rfl, rfl,
        fun doc h => Or.inl h⟩
  | succ fuel ih =>
    intro env opts url d st
    rw [deepCrawlWebsite]
    split
    · exact crawlRel_refl _ _ _
    · rename_i hg
      push_neg at hg
      have hd : d < opts.maxDepth := by omega
      cases hfp : env.fetchPage url with
      | none =>
        exact ⟨rfl, rfl, ⟨[], (List.append_nil _).symm⟩, ⟨[url], rfl⟩, rfl, rfl,
          fun doc h => Or.inl h⟩
      | some page =>
        dsimp only
        split
        · apply foldl_pres (crawlRel d opts.maxDepth st) _
            (fun s link hP => crawlRel_trans (Nat.le_succ d) hP (ih env opts link (d + 1) s))
          apply crawlRel_emit
          · rfl
          · exact hd
        · apply crawlRel_emit
          · rfl
          · exact hd

theorem deepCrawl_fetchInv :
    ∀ (fuel : Nat) (env : Env) (opts : CrawlOpts) (url : String) (d : Nat) (st : IndexerState),
      fetchInv st → fetchInv (deepCrawlWebsite env opts fuel url d st) := by
  intro fuel
  induction fuel with
  | zero =>
    intro env opts url d st hinv
    rw [deepCrawlWebsite]
    split
    · exact hinv
    · exact ⟨hinv.1, fun u hu => List.mem_append_left _ (hinv.2 u hu)⟩
  | succ fuel ih =>
    intro env opts url d st hinv
    rw [deepCrawlWebsite]
    split
    · exact hinv
    · rename_i hg
      push_neg at hg
      have hnmem : url ∉ st.fetchLog := fun hm =>
        contains_false_not_mem _ _ (Bool.eq_false_iff.mpr hg.2) (hinv.2 url hm)
      have hstep :
          fetchInv { st with crawledUrls := st.crawledUrls ++ [url],
                             fetchLog := st.fetchLog ++ [url] } := by
        constructor
        · exact (nodup_append_single _ _).mpr ⟨hinv.1, hnmem⟩
        · intro u hu
          rcases List.mem_append.mp hu with h | h
          · exact List.mem_append_left _ (hinv.2 u h)
          · exact List.mem_append_right _ h
      cases hfp : env.fetchPage url with
      | none => exact hstep
      | some page =>
        dsimp only
        split
        · apply foldl_pres fetchInv _ (fun s link hP => ih env opts link (d + 1) s hP)
          exact hstep
        · exact hstep

theorem fetchABSData_spec (env : Env) (st : IndexerState) :
    (fetchABSData env st).datasets = st.datasets ++ absDatasetsOf env ∧
    (fetchABSData env st).apis = st.apis ++ absApisOf env ∧
    (fetchABSData env st).documents = st.documents ++ absDocsOf env ∧
    (fetchABSData env st).contentSections = st.contentSections ∧
    (fetchABSData env st).crawledUrls = st.crawledUrls ∧
    (fetchABSData env st).fetchLog = st.fetchLog ∧
    (fetchABSData env st).searchIndex = st.searchIndex ∧
    (fetchABSData env st).lastUpdated = st.lastUpdated := by
  unfold fetchABSData absDatasetsOf absApisOf absDocsOf
  cases h1 : env.absCodelist <;> cases h2 : env.absDataflow <;> cases h3 : env.absOpenapi <;>
    simp [h1, h2, h3]

theorem crawlTop_rel (env : Env) (opts : CrawlOpts) (url : String) (st : IndexerState) :
    crawlRel 0 opts.maxDepth st (deepCrawlWebsiteTop env opts url st) :=
  deepCrawl_crawlRel _ env opts url 0 st

theorem fetchDEWRData_rel (env : Env) (st : IndexerState) :
    crawlRel 0 2 st (fetchDEWRData env st) :=
  crawlTop_rel env _ dewrUrl st

theorem fetchATOData_rel (env : Env) (st : IndexerState) :
    crawlRel 0 2 st (fetchATOData env st) :=
  crawlTop_rel env _ atoUrl st

theorem fetchABSStatsData_rel (env : Env) (st : IndexerState) :
    crawlRel 0 2 st (fetchABSStatsData env st) :=
  crawlTop_rel env _ absStatsUrl st

theorem fetchAllData_spec (env : Env) (st : IndexerState) :
    (fetchAllData env st).datasets = st.datasets ++ absDatasetsOf env ∧
    (fetchAllData env st).apis = st.apis ++ absApisOf env ∧
    (∃ a, (fetchAllData env st).contentSections = st.contentSections ++ a) ∧
    (∃ v, (fetchAllData env st).crawledUrls = st.crawledUrls ++ v) ∧
    (fetchAllData env st).searchIndex = st.searchIndex ∧
    (fetchAllData env st).lastUpdated = st.lastUpdated := by
  have habs := fetchABSData_spec env st
  have r1 := fetchDEWRData_rel env (fetchABSData env st)
  have r2 := fetchATOData_rel env (fetchDEWRData env (fetchABSData env st))
  have r3 := fetchABSStatsData_rel env
    (fetchATOData env (fetchDEWRData env (fetchABSData env st)))
  obtain ⟨d1, p1, ⟨a1, e1⟩, ⟨v1, f1⟩, i1, l1, _⟩ := r1
  obtain ⟨d2, p2, ⟨a2, e2⟩, ⟨v2, f2⟩, i2, l2, _⟩ := r2
  obtain ⟨d3, p3, ⟨a3, e3⟩, ⟨v3, f3⟩, i3, l3, _⟩ := r3
  refine ⟨?_, ?_, ⟨a1 ++ (a2 ++ a3), ?_⟩, ⟨v1 ++ (v2 ++ v3), ?_⟩, ?_, ?_⟩
  · exact d3.trans (d2.trans (d1.trans habs.1))
  · exact p3.trans (p2.trans (p1.trans habs.2.1))
  · show (fetchABSStatsData env _).contentSections = _
    rw [e3, e2, e1, habs.2.2.2.1]
    simp [List.append_assoc]
  · show (fetchABSStatsData env _).crawledUrls = _
    rw [f3, f2, f1, habs.2.2.2.2.1]
    simp [List.append_assoc]
  · show (fetchABSStatsData env _).searchIndex = _
    rw [i3, i2, i1, habs.2.2.2.2.2.2.1]
  · show (fetchABSStatsData env _).lastUpdated = _
    rw [l3, l2, l1, habs.2.2.2.2.2.2.2]

theorem fetchAllData_fetchInv (env : Env) (st : IndexerState) (h : fetchInv st) :
    fetchInv (fetchAllData env st) := by
  unfold fetchAllData fetchDEWRData fetchATOData fetchABSStatsData deepCrawlWebsiteTop
  apply deepCrawl_fetchInv
  apply deepCrawl_fetchInv
  apply deepCrawl_fetchInv
  have habs := fetchABSData_spec env st
  constructor
  · rw [habs.2.2.2.2.2.1]
    exact h.1
  · intro u hu
    rw [habs.2.2.2.2.2.1] at hu
    rw [habs.2.2.2.2.1]
    exact h.2 u hu

theorem refreshData_spec (env : Env) (st : IndexerState) :
    (refreshData env st).datasets = absDatasetsOf env ∧
    (refreshData env st).apis = absApisOf env ∧
    (∃ a, (refreshData env st).contentSections = st.contentSections ++ a) ∧
    (∃ v, (refreshData env st).crawledUrls = st.crawledUrls ++ v) := by
  have hall := fetchAllData_spec env
    { st with datasets := [], apis := [], documents := [] }
  unfold refreshData buildSearchIndex
  dsimp only
  obtain ⟨hd, hp, ⟨a, ha⟩, ⟨v, hv⟩, _, _⟩ := hall
  refine ⟨?_, ?_, ⟨a, ?_⟩, ⟨v, ?_⟩⟩
  · rw [hd]
    rfl
  · rw [hp]
    rfl
  · exact ha
  · exact hv

theorem refreshData_fetchInv (env : Env) (st : IndexerState) (h : fetchInv st) :
    fetchInv (refreshData env st) := by
  unfold refreshData buildSearchIndex
  dsimp only
  exact fetchAllData_fetchInv env _ ⟨h.1, h.2⟩

/-- Claim C3, amended. `refreshData` clears and wholesale-rebuilds `datasets`,
`apis` and `documents` — including any custom-submitted items that were
routed into those collections, which are therefore *removed* by a refresh —
so a crawled dataset no longer returned by its source does not appear in
`getStats` counts (the rebuilt datasets/apis depend on the fetch environment
alone); but `contentSections` is *not* cleared: old section records survive
every refresh and the collection only accumulates. -/
theorem claim_C3_refresh (env : Env) (st : IndexerState) :
    (refreshData env st).datasets = absDatasetsOf env ∧
    (refreshData env st).apis = absApisOf env ∧
    (∃ a, (refreshData env st).contentSections = st.contentSections ++ a) ∧
    (getStats (refreshData env st)).datasets = (absDatasetsOf env).length := by
  obtain ⟨hd, hp, hcs, _⟩ := refreshData_spec env st
  exact ⟨hd, hp, hcs, by rw [show (getStats (refreshData env st)).datasets =
    (refreshData env st).datasets.length from rfl, hd]⟩

/-- Counterexample for C3 as originally stated: a custom-submitted dataset
*is* removed by `refreshData` (the claim says it is not), while the crawled
section collection is *not* rebuilt (the claim says all four collections are
wholesale replaced). -/
theorem claim_C3_counterexample :
    stWithCustom.datasets ≠ [] ∧
    (refreshData envNone stWithCustom).datasets = [] ∧
    (refreshData envNone stWithCustom).contentSections = [secRec0] := by
  decide

/-- Claim C4, amended. Every URL is fetched at most once — but the dedup
scope is the *process lifetime*, not one `fetchAllData` cycle: the visited
set is only ever appended to (never cleared, not even by `refreshData`), the
URL is added before its fetch, and hence the fetch log stays duplicate-free
across any refresh, and a URL crawled in one run is *never* crawled again in
a later run. -/
theorem claim_C4_at_most_once (env : Env) (st : IndexerState)
    (h1 : st.fetchLog.Nodup) (h2 : ∀ u ∈ st.fetchLog, u ∈ st.crawledUrls) :
    (refreshData env st).fetchLog.Nodup ∧
    (∀ u ∈ (refreshData env st).fetchLog, u ∈ (refreshData env st).crawledUrls) ∧
    (∃ v, (refreshData env st).crawledUrls = st.crawledUrls ++ v) := by
  have hinv := refreshData_fetchInv env st ⟨h1, h2⟩
  exact ⟨hinv.1, hinv.2, (refreshData_spec env st).2.2.2⟩

/-- Witness for C4: the invariant applied at the fresh state. -/
theorem claim_C4_witness :
    (refreshData envNone emptyState).fetchLog.Nodup ∧
    (∀ u ∈ (refreshData envNone emptyState).fetchLog,
        u ∈ (refreshData envNone emptyState).crawledUrls) ∧
    (∃ v, (refreshData envNone emptyState).crawledUrls = emptyState.crawledUrls ++ v) :=
  claim_C4_at_most_once envNone emptyState List.nodup_nil
    (fun u hu => absurd hu (List.not_mem_nil u))

/-- Counterexample for C4 as originally stated: the DEWR seed is fetched in
the first refresh run, and — because the visited set is scoped to the
process, not to one `fetchAllData` cycle — it is *not* fetched again in the
second run (the fetch count stays 1 instead of becoming 2). -/
theorem claim_C4_counterexample :
    (refreshData envNone emptyState).fetchLog.count dewrUrl = 1 ∧
    (refreshData envNone (refreshData envNone emptyState)).fetchLog.count dewrUrl = 1 := by
  decide

/-- Claim C5. A `deepCrawlWebsite` call at `currentDepth ≥ maxDepth`, or for a
URL already in the visited set, is a no-op (state unchanged, nothing
emitted); and every document a crawl adds was emitted at a recursion depth
at least the call's depth and strictly below `maxDepth` — so a crawl started
at the seed (depth 0) with `maxDepth = N` never emits a document whose link
distance from the seed reaches `N` (each recursive hop increments the depth
by exactly one). -/
theorem claim_C5_depth_bound (env : Env) (opts : CrawlOpts) (fuel : Nat)
    (url : String) (d : Nat) (st : IndexerState) :
    (d ≥ opts.maxDepth ∨ st.crawledUrls.contains url = true →
      deepCrawlWebsite env opts fuel url d st = st) ∧
    (∀ doc, doc ∈ (deepCrawlWebsite env opts fuel url d st).documents →
      doc ∈ st.documents ∨ (d ≤ doc.crawlDepth ∧ doc.crawlDepth < opts.maxDepth)) := by
  constructor
  · intro hg
    cases fuel with
    | zero =>
      rw [deepCrawlWebsite, if_pos hg]
    | succ fuel' =>
      rw [deepCrawlWebsite, if_pos hg]
  · exact (deepCrawl_crawlRel fuel env opts url d st).2.2.2.2.2.2

/-- Witness for C5: a call at depth 5 with `maxDepth = 2` is a no-op. -/
theorem claim_C5_witness :
    deepCrawlWebsite envNone opts5 2 "https://u" 5 st5 = st5 :=
  (claim_C5_depth_bound envNone opts5 2 "https://u" 5 st5).1 (Or.inl (by decide))

/-- Claim C9, amended. `getStats` returns the lengths of the `datasets`,
`apis` and `documents` collections, their sum as `total`, and the refresh
timestamp — and nothing else: content sections are not counted (the
section count is exactly the gap between `total` and the number of indexed
items), and no source/type/tag breakdowns are produced by this method. -/
theorem claim_C9_stats (st : IndexerState) :
    getStats st = { datasets := st.datasets.length, apis := st.apis.length,
                    documents := st.documents.length,
                    total := st.datasets.length + st.apis.length + st.documents.length,
                    lastUpdated := st.lastUpdated } ∧
    (getStats st).total + st.contentSections.length = (allItems st).length := by
  refine ⟨rfl, ?_⟩
  show st.datasets.length + st.apis.length + st.documents.length +
      st.contentSections.length = (allItems st).length
  unfold allItems
  simp [List.length_append, List.length_map]
  omega

/-- Counterexample for C9 as originally stated: with one indexed content
section the search index holds one item, yet `getStats` reports `total = 0`
— the total does not reflect the `section` record category (and `getStats`
computes no breakdowns; the source/type/tag breakdowns of the dashboard are
assembled by the HTTP stats route from the other three collections only). -/
theorem claim_C9_counterexample :
    stPre.contentSections ≠ [] ∧
    (allItems stPre).length = 1 ∧
    (getStats stPre).total = 0 := by
  decide
